import Mathlib

/-!
Verification of the trustbloc/logutil-go core: the module-level registry
(`moduleLevels`), the log-spec parser/serializer (`SetSpec`/`GetSpec`), the
severity-routed sinks (`newZap`), and the correlation-ID engine
(`FromContext`, `Set`, `SetWithValue`, `deriveID`, `generateID`).
Definitions are a shallow embedding of the Go source.
-/

/-- `Level` from `pkg/log` — a Go `int` based on zapcore's levels. -/
abbrev Level := Int

/-- `DEBUG = Level(zapcore.DebugLevel)` = -1. -/
def DEBUG : Level := (-1 : Int)

/-- `INFO = Level(zapcore.InfoLevel)` = 0. -/
def INFO : Level := (0 : Int)

/-- `WARNING = Level(zapcore.WarnLevel)` = 1. -/
def WARNING : Level := (1 : Int)

/-- `ERROR = Level(zapcore.ErrorLevel)` = 2. -/
def ERROR : Level := (2 : Int)

/-- `PANIC = Level(zapcore.PanicLevel)` = 4. -/
def PANIC : Level := (4 : Int)

/-- `FATAL = Level(zapcore.FatalLevel)` = 5. -/
def FATAL : Level := (5 : Int)

/-- `minLogLevel = DEBUG`. -/
def minLogLevel : Level := DEBUG

/-- `defaultLevel = INFO`. -/
def defaultLevel : Level := INFO

/-- `Level.String()` from `pkg/log`. -/
def levelString (l : Level) : String :=
  if l = DEBUG then "DEBUG"
  else if l = INFO then "INFO"
  else if l = WARNING then "WARN"
  else if l = ERROR then "ERROR"
  else if l = PANIC then "PANIC"
  else if l = FATAL then "FATAL"
  else "Level(" ++ toString (l : Int) ++ ")"

/-- `ParseLevel` from `pkg/log`: case patterns exactly as in the Go switch.
On an unrecognized string Go returns `(ERROR, error)`; we keep the error. -/
def ParseLevel (level : String) : Except String Level :=
  if level = "DEBUG" ∨ level = "debug" then .ok DEBUG
  else if level = "INFO" ∨ level = "info" then .ok INFO
  else if level = "WARN" ∨ level = "warn" ∨ level = "WARNING" ∨ level = "warning" then .ok WARNING
  else if level = "ERROR" ∨ level = "error" then .ok ERROR
  else if level = "PANIC" ∨ level = "panic" then .ok PANIC
  else if level = "FATAL" ∨ level = "fatal" then .ok FATAL
  else .error "logger: invalid log level"

/-- The `moduleLevels.levels` map, embedded as an association list with
unique keys (a Go `map[string]Level`). -/
abbrev Registry := List (String × Level)

/-- The initial registry: `make(map[string]Level)` in `newModuleLevels`. -/
def Registry.empty : Registry := []

/-- Go map lookup `l.levels[module]`. -/
def Registry.find : Registry → String → Option Level
  | [], _ => none
  | (k, v) :: rest, m => if k = m then some v else Registry.find rest m

/-- Go map assignment `l.levels[module] = level` (`moduleLevels.Set`). -/
def Registry.set : Registry → String → Level → Registry
  | [], m, l => [(m, l)]
  | (k, v) :: rest, m, l =>
      if k = m then (m, l) :: rest else (k, v) :: Registry.set rest m l

/-- `moduleLevels.SetDefault(level)` = `Set("", level)`. -/
def Registry.setDefault (r : Registry) (l : Level) : Registry := r.set "" l

/-- `moduleLevels.Get`: the registered level, else the level for the default
module `""`, else `defaultLevel` (INFO). -/
def Registry.Get (r : Registry) (m : String) : Level :=
  match r.find m with
  | some level => level
  | none =>
      match r.find "" with
      | some level => level
      | none => defaultLevel

/-- `moduleLevels.isEnabled`: `level >= l.Get(module)`. -/
def Registry.isEnabled (r : Registry) (m : String) (level : Level) : Bool :=
  decide (r.Get m ≤ level)

/-- Claim C1: for every module `m`, `Get(m)` returns the level registered for
`m`; if `m` is unregistered it returns the level registered for the default
module `""`; if that is also unregistered it returns INFO. `Get` is a total
function (it never errors). -/
theorem C1_get_fallback (r : Registry) (m : String) :
    (∀ l, r.find m = some l → r.Get m = l) ∧
    (r.find m = none → r.Get m = r.Get "") ∧
    (r.find m = none → r.find "" = none → r.Get m = INFO) := by
  refine ⟨fun l h => ?_, fun h => ?_, fun h h2 => ?_⟩
  · simp [Registry.Get, h]
  · cases h2 : r.find "" with
    | none => simp [Registry.Get, h, h2]
    | some l => simp [Registry.Get, h, h2]
  · simp [Registry.Get, h, h2, defaultLevel]

/-- Witness for C1 at a concrete registry. -/
theorem C1_get_fallback_witness :
    ((Registry.empty.set "mod" DEBUG).find "mod" = some DEBUG →
      (Registry.empty.set "mod" DEBUG).Get "mod" = DEBUG) ∧
    ((Registry.empty.set "mod" DEBUG).find "other" = none →
      (Registry.empty.set "mod" DEBUG).find "" = none →
      (Registry.empty.set "mod" DEBUG).Get "other" = INFO) :=
  ⟨(C1_get_fallback (Registry.empty.set "mod" DEBUG) "mod").1 DEBUG,
   (C1_get_fallback (Registry.empty.set "mod" DEBUG) "other").2.2⟩

/-- A log record: message plus rendered fields (the encoder itself is an
external collaborator; routing happens before encoding). -/
structure Record where
  msg : String
  fields : List String
deriving DecidableEq

/-- The two sinks configured in `newZap`: `stdOut` for DEBUG/INFO/WARN,
`stdErr` for ERROR/PANIC/FATAL. Contents are the records written so far. -/
structure Sinks where
  stdOut : List Record
  stdErr : List Record
deriving DecidableEq

/-- The severity-routed tee from `newZap`: the stderr core is enabled when
`lvl >= zapcore.ErrorLevel && levels.isEnabled(module, lvl)`, the stdout core
when `lvl < zapcore.ErrorLevel && levels.isEnabled(module, lvl)`. A record is
appended to a sink exactly when its core's enabler accepts the level. -/
def logWrite (r : Registry) (module : String) (lvl : Level) (rec : Record)
    (s : Sinks) : Sinks :=
  let s1 :=
    if ERROR ≤ lvl ∧ r.isEnabled module lvl = true then
      { s with stdErr := s.stdErr ++ [rec] }
    else s
  if lvl < ERROR ∧ r.isEnabled module lvl = true then
    { s1 with stdOut := s1.stdOut ++ [rec] }
  else s1

/-- A context-aware call (`Debugc`/`Infoc`/`Warnc`/`Errorc`/...): identical
routing, with the tracing field from `WithTracing(ctx)` appended to the
call-supplied fields before the write (`append(fields, WithTracing(ctx))`). -/
def logWritec (r : Registry) (module : String) (lvl : Level) (rec : Record)
    (tracingField : String) (s : Sinks) : Sinks :=
  logWrite r module lvl { rec with fields := rec.fields ++ [tracingField] } s

/-- Claim C2: a log call (plain or context-aware) at severity DEBUG, INFO,
WARNING or ERROR with level strictly below `Get(module)` writes zero bytes to
either sink: the sinks are unchanged. -/
theorem C2_gate_suppresses (r : Registry) (module : String) (lvl : Level)
    (rec : Record) (tf : String) (s : Sinks)
    (hlvl : lvl = DEBUG ∨ lvl = INFO ∨ lvl = WARNING ∨ lvl = ERROR)
    (hlt : lvl < r.Get module) :
    logWrite r module lvl rec s = s ∧ logWritec r module lvl rec tf s = s := by
  have hdis : r.isEnabled module lvl = false := by
    unfold Registry.isEnabled
    simp only [decide_eq_false_iff_not]
    exact not_le.mpr hlt
  constructor
  · simp [logWrite, hdis]
  · simp [logWritec, logWrite, hdis]

/-- Witness for C2: with module "m" set to ERROR, an INFO record at
concrete sinks is dropped by both cores. -/
theorem C2_gate_suppresses_witness :
    logWrite (Registry.empty.set "m" ERROR) "m" INFO ⟨"hello", []⟩ ⟨[], []⟩ =
      ⟨[], []⟩ ∧
    logWritec (Registry.empty.set "m" ERROR) "m" INFO ⟨"hello", []⟩ "tf" ⟨[], []⟩ =
      ⟨[], []⟩ :=
  C2_gate_suppresses (Registry.empty.set "m" ERROR) "m" INFO ⟨"hello", []⟩ "tf" ⟨[], []⟩
    (by simp [INFO, DEBUG, WARNING, ERROR]) (by decide)

/-- How a logging call returns control: normally, by unwinding (Go `panic`),
or by terminating the process (`os.Exit`). -/
inductive Outcome where
  | completed
  | panicked (msg : String)
  | exited (code : Nat)
deriving DecidableEq

/-- Modelled from the spec: the termination behavior of the underlying zap
logger (an external dependency, not in the repository source). Per the
`Log.Panicc` doc comment, "The logger then panics, even if logging at
PanicLevel is disabled": the record is routed through the severity gate, and
the call then unwinds unconditionally, carrying the message. -/
def paniccCall (r : Registry) (module : String) (rec : Record) (tf : String)
    (s : Sinks) : Sinks × Outcome :=
  (logWritec r module PANIC rec tf s, .panicked rec.msg)

/-- Modelled from the spec: per the `Log.Fatalc` doc comment, "The logger
then calls os.Exit(1), even if logging at FatalLevel is disabled". -/
def fatalcCall (r : Registry) (module : String) (rec : Record) (tf : String)
    (s : Sinks) : Sinks × Outcome :=
  (logWritec r module FATAL rec tf s, .exited 1)

/-- Claim C3: for every module and registry configuration — including one
whose threshold for the module is above PANIC or FATAL, which suppresses the
record — the PANIC-level method always unwinds carrying the message, and the
FATAL-level method always exits with the non-zero status 1. -/
theorem C3_panic_fatal_unconditional (r : Registry) (module : String)
    (rec : Record) (tf : String) (s : Sinks) :
    (paniccCall r module rec tf s).2 = .panicked rec.msg ∧
    (fatalcCall r module rec tf s).2 = .exited 1 ∧
    (PANIC < r.Get module → (paniccCall r module rec tf s).1 = s) ∧
    (FATAL < r.Get module → (fatalcCall r module rec tf s).1 = s) := by
  refine ⟨rfl, rfl, fun h => ?_, fun h => ?_⟩
  · have hdis : r.isEnabled module PANIC = false := by
      unfold Registry.isEnabled
      simp only [decide_eq_false_iff_not]
      exact not_le.mpr h
    simp [paniccCall, logWritec, logWrite, hdis]
  · have hdis : r.isEnabled module FATAL = false := by
      unfold Registry.isEnabled
      simp only [decide_eq_false_iff_not]
      exact not_le.mpr h
    simp [fatalcCall, logWritec, logWrite, hdis]

/-- 32-bit truncation (Go `uint32` arithmetic). -/
def w32 (n : Nat) : Nat := n % 4294967296

/-- 32-bit rotate right. -/
def rotr32 (x k : Nat) : Nat := w32 ((x >>> k) ||| (x <<< (32 - k)))

/-- SHA-256 Σ0. -/
def bSigma0 (x : Nat) : Nat := (rotr32 x 2) ^^^ (rotr32 x 13) ^^^ (rotr32 x 22)

/-- SHA-256 Σ1. -/
def bSigma1 (x : Nat) : Nat := (rotr32 x 6) ^^^ (rotr32 x 11) ^^^ (rotr32 x 25)

/-- SHA-256 σ0. -/
def sSigma0 (x : Nat) : Nat := (rotr32 x 7) ^^^ (rotr32 x 18) ^^^ (x >>> 3)

/-- SHA-256 σ1. -/
def sSigma1 (x : Nat) : Nat := (rotr32 x 17) ^^^ (rotr32 x 19) ^^^ (x >>> 10)

/-- SHA-256 Ch. -/
def chFn (x y z : Nat) : Nat := (x &&& y) ^^^ ((x ^^^ 4294967295) &&& z)

/-- SHA-256 Maj. -/
def majFn (x y z : Nat) : Nat := (x &&& y) ^^^ (x &&& z) ^^^ (y &&& z)

/-- The 64 SHA-256 round constants. -/
def sha256K : List Nat :=
  [1116352408, 1899447441, 3049323471, 3921009573, 961987163,
   1508970993, 2453635748, 2870763221, 3624381080, 310598401,
   607225278, 1426881987, 1925078388, 2162078206, 2614888103,
   3248222580, 3835390401, 4022224774, 264347078, 604807628,
   770255983, 1249150122, 1555081692, 1996064986, 2554220882,
   2821834349, 2952996808, 3210313671, 3336571891, 3584528711,
   113926993, 338241895, 666307205, 773529912, 1294757372,
   1396182291, 1695183700, 1986661051, 2177026350, 2456956037,
   2730485921, 2820302411, 3259730800, 3345764771, 3516065817,
   3600352804, 4094571909, 275423344, 430227734, 506948616,
   659060556, 883997877, 958139571, 1322822218, 1537002063,
   1747873779, 1955562222, 2024104815, 2227730452, 2361852424,
   2428436474, 2756734187, 3204031479, 3329325298]

/-- The eight-word SHA-256 working state. -/
structure H8 where
  a : Nat
  b : Nat
  c : Nat
  d : Nat
  e : Nat
  f : Nat
  g : Nat
  h : Nat

/-- The SHA-256 initial hash value. -/
def sha256H0 : H8 :=
  ⟨1779033703, 3144134277, 1013904242, 2773480762,
   1359893119, 2600822924, 528734635, 1541459225⟩

/-- SHA-256 padding: append 0x80, zeros to 56 mod 64, then the bit length as
eight big-endian bytes. -/
def padMessage (msg : List Nat) : List Nat :=
  let len := msg.length
  let zeros := (120 - (len + 1) % 64) % 64
  msg ++ [0x80] ++ List.replicate zeros 0 ++
    ((List.range 8).map (fun i => (8 * len) >>> (8 * (7 - i)) % 256))

/-- The 16 big-endian message words of a 64-byte block. -/
def beWords16 (block : List Nat) : List Nat :=
  (List.range 16).map (fun i =>
    (block.getD (4 * i) 0) <<< 24 ||| (block.getD (4 * i + 1) 0) <<< 16 |||
    (block.getD (4 * i + 2) 0) <<< 8 ||| block.getD (4 * i + 3) 0)

/-- One message-schedule extension step. -/
def nextW (acc : List Nat) : Nat :=
  let n := acc.length
  w32 (sSigma1 (acc.getD (n - 2) 0) + acc.getD (n - 7) 0 +
       sSigma0 (acc.getD (n - 15) 0) + acc.getD (n - 16) 0)

/-- The 64-word SHA-256 message schedule. -/
def schedule (ws : List Nat) : List Nat :=
  (List.range 48).foldl (fun acc _ => acc ++ [nextW acc]) ws

/-- One SHA-256 compression round. -/
def roundStep (st : H8) (kw : Nat × Nat) : H8 :=
  let t1 := w32 (st.h + bSigma1 st.e + chFn st.e st.f st.g + kw.1 + kw.2)
  let t2 := w32 (bSigma0 st.a + majFn st.a st.b st.c)
  ⟨w32 (t1 + t2), st.a, st.b, st.c, w32 (st.d + t1), st.e, st.f, st.g⟩

/-- SHA-256 compression of one 64-byte block. -/
def compress (st : H8) (block : List Nat) : H8 :=
  let ws := schedule (beWords16 block)
  let fin := (sha256K.zip ws).foldl roundStep st
  ⟨w32 (st.a + fin.a), w32 (st.b + fin.b), w32 (st.c + fin.c), w32 (st.d + fin.d),
   w32 (st.e + fin.e), w32 (st.f + fin.f), w32 (st.g + fin.g), w32 (st.h + fin.h)⟩

/-- Split a padded message into 64-byte blocks (structural recursion on a
fuel bounded by the list length, so the kernel can evaluate it). -/
def toBlocksAux : Nat → List Nat → List (List Nat)
  | _, [] => []
  | 0, _ :: _ => []
  | fuel + 1, a :: rest =>
      (a :: rest).take 64 :: toBlocksAux fuel ((a :: rest).drop 64)

/-- Split a padded message into 64-byte blocks. -/
def toBlocks (l : List Nat) : List (List Nat) := toBlocksAux l.length l

/-- A 32-bit word as four big-endian bytes. -/
def wordBE (n : Nat) : List Nat :=
  [n >>> 24 % 256, n >>> 16 % 256, n >>> 8 % 256, n % 256]

/-- `crypto/sha256.Sum256` (FIPS 180-4), over byte lists. -/
def sha256 (msg : List Nat) : List Nat :=
  let fin := (toBlocks (padMessage msg)).foldl compress sha256H0
  wordBE fin.a ++ wordBE fin.b ++ wordBE fin.c ++ wordBE fin.d ++
  wordBE fin.e ++ wordBE fin.f ++ wordBE fin.g ++ wordBE fin.h

/-- Lowercase hex digit for a value below 16 (`encoding/hex` alphabet). -/
def hexDigitChar (n : Nat) : Char :=
  if n < 10 then Char.ofNat (48 + n) else Char.ofNat (87 + n)

/-- `hex.EncodeToString`: two lowercase hex digits per byte. -/
def hexEncode (bs : List Nat) : String :=
  String.mk ((bs.map (fun b => [hexDigitChar (b / 16 % 16), hexDigitChar (b % 16)])).flatten)

/-- `strings.ToUpper`, embedded as a per-character map. -/
def goToUpper (s : String) : String := String.mk (s.data.map Char.toUpper)

/-- A character encoded as UTF-8 bytes (Go `[]byte(string)` conversion). -/
def utf8EncodeChar (c : Char) : List Nat :=
  let n := c.toNat
  if n < 128 then [n]
  else if n < 2048 then [192 ||| (n >>> 6), 128 ||| (n &&& 63)]
  else if n < 65536 then
    [224 ||| (n >>> 12), 128 ||| ((n >>> 6) &&& 63), 128 ||| (n &&& 63)]
  else
    [240 ||| (n >>> 18), 128 ||| ((n >>> 12) &&& 63),
     128 ||| ((n >>> 6) &&& 63), 128 ||| (n &&& 63)]

/-- The bytes of a Go string. -/
def utf8Bytes (s : String) : List Nat := (s.data.map utf8EncodeChar).flatten

/-- `api.CorrelationIDHeader` from `pkg/otel/api`. -/
def CorrelationIDHeader : String := "X-Correlation-ID"

/-- `nilTraceID` from `pkg/otel/correlationid`: the all-zero sentinel. -/
def nilTraceID : String := "00000000000000000000000000000000"

/-- `correlationIDLength` from `pkg/otel/correlationid` (default length 8). -/
def correlationIDLength : Nat := 8

/-- A baggage member: key and value. -/
abbrev Member := String × String

/-- The OpenTelemetry baggage attached to a context: a list of members. -/
abbrev Baggage := List Member

/-- `b.Member(key).Value()`: the member's value, `""` when absent. -/
def Baggage.memberValue (b : Baggage) (k : String) : String :=
  match b.find? (fun p => p.1 == k) with
  | some p => p.2
  | none => ""

/-- Whether a character may appear in a baggage member value
(W3C `baggage-octet`: printable ASCII except `"`, `,`, `;`, `\`). -/
def isBaggageOctet (c : Char) : Bool :=
  decide (33 ≤ c.toNat ∧ c.toNat ≤ 126 ∧
    c.toNat ≠ 34 ∧ c.toNat ≠ 44 ∧ c.toNat ≠ 59 ∧ c.toNat ≠ 92)

/-- Modelled from the spec: `baggage.NewMember` from the OpenTelemetry SDK
(an external collaborator, §6 of the spec) constructs a member and errors on
a malformed value; the error is propagated (§7). -/
def newMember (k v : String) : Except String Member :=
  if v.data.all isBaggageOctet then .ok (k, v) else .error "invalid value"

/-- Modelled from the spec: `baggage.New(m)` builds a container holding
exactly the given members; with a single already-validated member it
succeeds. -/
def newBaggage (m : Member) : Except String Baggage := .ok [m]

/-- A request context: either a root context (carrying the trace ID string
its active span reports — `nilTraceID` when there is no span), or a context
derived by attaching a baggage container (`baggage.ContextWithBaggage`). -/
inductive Ctx where
  | root (traceID : String) : Ctx
  | withBaggage (parent : Ctx) (b : Baggage) : Ctx
deriving DecidableEq

/-- `baggage.FromContext`: the most recently attached container (empty at a
root context). -/
def Ctx.baggage : Ctx → Baggage
  | .root _ => []
  | .withBaggage _ b => b

/-- `trace.SpanFromContext(ctx).SpanContext().TraceID().String()`: the trace
ID is carried unchanged through baggage derivations. -/
def Ctx.traceID : Ctx → String
  | .root t => t
  | .withBaggage p _ => p.traceID

/-- `baggage.ContextWithBaggage`: derives a new child context. -/
def contextWithBaggage (ctx : Ctx) (b : Baggage) : Ctx := .withBaggage ctx b

/-- The `options` struct of `FromContext` (package `correlationid`). -/
structure FCOptions where
  generateFixedLengthID : Bool
  generateUUID : Bool
  value : String
  correlationIDLength : Nat
deriving DecidableEq

/-- The zero-value `options{}` struct. -/
def FCOptions.init : FCOptions := ⟨false, false, "", 0⟩

/-- `Opt`, an option for `FromContext`. -/
abbrev Opt := FCOptions → FCOptions

/-- `GenerateUUIDIfNotFound`. -/
def GenerateUUIDIfNotFound : Opt := fun o => { o with generateUUID := true }

/-- `GenerateNewFixedLengthIfNotFound(length)`. -/
def GenerateNewFixedLengthIfNotFound (length : Nat) : Opt :=
  fun o => { o with generateFixedLengthID := true, correlationIDLength := length }

/-- `WithValue(correlationID)`. -/
def WithValue (correlationID : String) : Opt :=
  fun o => { o with value := correlationID }

/-- `generateID(options)` from `FromContext`'s package: a UUID when
configured, else `length/2` random bytes, hex-encoded and uppercased.
`crypto/rand` is modelled as a caller-supplied byte stream that fails when
it cannot supply `length/2` bytes; `uuid.NewString()` as a supplied string. -/
def generateID (randBytes : List Nat) (uuidStr : String) (o : FCOptions) :
    Except String String :=
  if o.generateUUID then .ok uuidStr
  else if randBytes.length < o.correlationIDLength / 2 then
    .error "random source failure"
  else .ok (goToUpper (hexEncode (randBytes.take (o.correlationIDLength / 2))))

/-- `FromContext(ctx, opts...)`: returns the correlation ID found in the
baggage, or else generates/uses the configured one and attaches it via a new
single-member baggage on a derived context. -/
def FromContext (randBytes : List Nat) (uuidStr : String) (ctx : Ctx)
    (opts : List Opt) : Except String (Ctx × String) :=
  let options := opts.foldl (fun o f => f o) FCOptions.init
  let mv := ctx.baggage.memberValue CorrelationIDHeader
  if mv ≠ "" ∧ (options.value = "" ∨ mv = options.value) then
    .ok (ctx, mv)
  else if options.generateFixedLengthID = false ∧ options.generateUUID = false ∧
      options.value = "" then
    .ok (ctx, "")
  else
    let cid : Except String String :=
      if options.value = "" then
        match generateID randBytes uuidStr options with
        | .error e => .error ("generate correlation ID: " ++ e)
        | .ok c => .ok c
      else .ok options.value
    match cid with
    | .error e => .error e
    | .ok correlationID =>
        match newMember CorrelationIDHeader correlationID with
        | .error e => .error ("create baggage member: " ++ e)
        | .ok m =>
            match newBaggage m with
            | .error e => .error ("create baggage: " ++ e)
            | .ok b => .ok (contextWithBaggage ctx b, correlationID)

/-- `SetWithValue(ctx, correlationID)` from `httptransport.go`: a no-op when
the baggage already holds the same value, else attaches a new single-member
baggage on a derived context. -/
def SetWithValue (ctx : Ctx) (correlationID : String) : Except String Ctx :=
  if ctx.baggage.memberValue CorrelationIDHeader = correlationID then .ok ctx
  else
    match newMember CorrelationIDHeader correlationID with
    | .error e => .error ("create baggage member: " ++ e)
    | .ok m =>
        match newBaggage m with
        | .error e => .error ("create baggage: " ++ e)
        | .ok b => .ok (contextWithBaggage ctx b)

/-- `generateID()` from `httptransport.go`: `correlationIDLength/2` random
bytes, hex-encoded and uppercased (`crypto/rand` modelled as a byte stream). -/
def generateIDDefaultLength (randBytes : List Nat) : Except String String :=
  if randBytes.length < correlationIDLength / 2 then
    .error "random source failure"
  else .ok (goToUpper (hexEncode (randBytes.take (correlationIDLength / 2))))

/-- `deriveID(id)`: the first `correlationIDLength/2` bytes of the SHA-256
digest of `id`, hex-encoded and uppercased. -/
def deriveID (id : String) : String :=
  goToUpper (hexEncode ((sha256 (utf8Bytes id)).take (correlationIDLength / 2)))

/-- `Set(ctx)` from `httptransport.go`: returns the baggage's correlation ID
if present; else derives it from the active trace ID, or generates a random
one when no usable trace ID exists, and attaches it via `SetWithValue`. -/
def SetCorrelationID (randBytes : List Nat) (ctx : Ctx) :
    Except String (Ctx × String) :=
  let mv := ctx.baggage.memberValue CorrelationIDHeader
  if mv ≠ "" then .ok (ctx, mv)
  else
    let tid := ctx.traceID
    let gen : Except String String :=
      if tid ≠ "" ∧ tid ≠ nilTraceID then .ok (deriveID tid)
      else
        match generateIDDefaultLength randBytes with
        | .error e => .error ("generate correlation ID: " ++ e)
        | .ok c => .ok c
    match gen with
    | .error e => .error e
    | .ok correlationID =>
        match SetWithValue ctx correlationID with
        | .error e => .error e
        | .ok c2 => .ok (c2, correlationID)

deriving instance DecidableEq for Except

/-- Whether a character is an uppercase hexadecimal digit (0-9 or A-F). -/
def isUpperHexDigit (c : Char) : Bool :=
  decide ((48 ≤ c.toNat ∧ c.toNat ≤ 57) ∨ (65 ≤ c.toNat ∧ c.toNat ≤ 70))

theorem hexDigitChar_toUpper_upperHex (m : Nat) (h : m < 16) :
    isUpperHexDigit (Char.toUpper (hexDigitChar m)) = true := by
  interval_cases m <;> decide

theorem mem_goToUpper_hexEncode_upperHex (bs : List Nat) (c : Char)
    (hc : c ∈ (goToUpper (hexEncode bs)).data) : isUpperHexDigit c = true := by
  simp only [goToUpper, hexEncode, List.mem_map] at hc
  obtain ⟨d, hd, hdc⟩ := hc
  simp only [List.mem_flatten, List.mem_map] at hd
  obtain ⟨chunk, ⟨b, _, hchunk⟩, hdchunk⟩ := hd
  subst hchunk
  subst hdc
  simp only [List.mem_cons, List.mem_singleton, List.not_mem_nil, or_false] at hdchunk
  rcases hdchunk with h1 | h1 <;>
    (rw [h1]; exact hexDigitChar_toUpper_upperHex _ (Nat.mod_lt _ (by norm_num)))

theorem upperHex_isBaggageOctet (c : Char) (h : isUpperHexDigit c = true) :
    isBaggageOctet c = true := by
  simp only [isUpperHexDigit, decide_eq_true_eq] at h
  simp only [isBaggageOctet, decide_eq_true_eq]
  omega

theorem goToUpper_hexEncode_valid (bs : List Nat) :
    (goToUpper (hexEncode bs)).data.all isBaggageOctet = true := by
  rw [List.all_eq_true]
  intro c hc
  exact upperHex_isBaggageOctet c (mem_goToUpper_hexEncode_upperHex bs c hc)

theorem goToUpper_hexEncode_data_length (bs : List Nat) :
    (goToUpper (hexEncode bs)).data.length = 2 * bs.length := by
  simp only [goToUpper, hexEncode, List.length_map]
  induction bs with
  | nil => rfl
  | cons b rest ih => simp [List.flatten, ih]; ring

/-- Claim C4 counterexample: with baggage already carrying correlation ID
"A", `FromContext` with the option `WithValue "B"` does not return the
baggage value and the unchanged context — it overrides with "B" on a newly
derived context. -/
theorem C4_counterexample :
    FromContext [] "" (Ctx.withBaggage (Ctx.root nilTraceID) [(CorrelationIDHeader, "A")])
        [WithValue "B"] =
      .ok (Ctx.withBaggage
            (Ctx.withBaggage (Ctx.root nilTraceID) [(CorrelationIDHeader, "A")])
            [(CorrelationIDHeader, "B")], "B") ∧
    FromContext [] "" (Ctx.withBaggage (Ctx.root nilTraceID) [(CorrelationIDHeader, "A")])
        [WithValue "B"] ≠
      .ok (Ctx.withBaggage (Ctx.root nilTraceID) [(CorrelationIDHeader, "A")], "A") := by
  constructor
  · decide
  · decide

/-- Claim C4 (amended): if the baggage already carries a non-empty
correlation-ID member, then for every option combination whose explicit
value is unset or equal to that member's value, `FromContext` returns the
member's value and the original context unchanged (no new allocation). -/
theorem C4_baggage_authoritative (randBytes : List Nat) (uuidStr : String)
    (ctx : Ctx) (opts : List Opt)
    (hmv : ctx.baggage.memberValue CorrelationIDHeader ≠ "")
    (hval : (opts.foldl (fun o f => f o) FCOptions.init).value = "" ∨
        ctx.baggage.memberValue CorrelationIDHeader =
          (opts.foldl (fun o f => f o) FCOptions.init).value) :
    FromContext randBytes uuidStr ctx opts =
      .ok (ctx, ctx.baggage.memberValue CorrelationIDHeader) := by
  unfold FromContext
  rw [if_pos ⟨hmv, hval⟩]

/-- Witness for C4 (amended) at a concrete context and options. -/
theorem C4_baggage_authoritative_witness :
    ((Ctx.withBaggage (Ctx.root nilTraceID)
        [(CorrelationIDHeader, "A")]).baggage.memberValue CorrelationIDHeader ≠ "" ∧
      ([WithValue "A"].foldl (fun o f => f o) FCOptions.init).value = "" ∨
        (Ctx.withBaggage (Ctx.root nilTraceID)
          [(CorrelationIDHeader, "A")]).baggage.memberValue CorrelationIDHeader =
          ([WithValue "A"].foldl (fun o f => f o) FCOptions.init).value) ∧
    FromContext [] "" (Ctx.withBaggage (Ctx.root nilTraceID) [(CorrelationIDHeader, "A")])
        [WithValue "A"] =
      .ok (Ctx.withBaggage (Ctx.root nilTraceID) [(CorrelationIDHeader, "A")],
        (Ctx.withBaggage (Ctx.root nilTraceID)
          [(CorrelationIDHeader, "A")]).baggage.memberValue CorrelationIDHeader) :=
  ⟨by decide,
   C4_baggage_authoritative [] "" _ [WithValue "A"] (by decide) (by decide)⟩

theorem newMember_ok (k v : String) (m : Member) (h : newMember k v = .ok m) :
    m = (k, v) := by
  unfold newMember at h
  split at h
  · injection h with h1
    exact h1.symm
  · exact Except.noConfusion h

theorem withBaggage_ne (ctx : Ctx) : ∀ b, Ctx.withBaggage ctx b ≠ ctx := by
  induction ctx with
  | root t => intro b h; exact Ctx.noConfusion h
  | withBaggage p b2 ih =>
      intro b h
      injection h with h1 h2
      exact ih b2 h1

/-- Claim C10: whenever `FromContext` or `SetWithValue` attaches a
correlation ID (returns a context different from its input), the returned
context's baggage is exactly the single correlation-ID member; every other
member of the input baggage is absent. -/
theorem C10_attach_replaces_baggage :
    (∀ (randBytes : List Nat) (uuidStr : String) (ctx : Ctx) (opts : List Opt)
        (ctx2 : Ctx) (cid : String),
      FromContext randBytes uuidStr ctx opts = .ok (ctx2, cid) → ctx2 ≠ ctx →
      ctx2.baggage = [(CorrelationIDHeader, cid)]) ∧
    (∀ (ctx : Ctx) (v : String) (ctx2 : Ctx),
      SetWithValue ctx v = .ok ctx2 → ctx2 ≠ ctx →
      ctx2.baggage = [(CorrelationIDHeader, v)]) := by
  constructor
  · intro randBytes uuidStr ctx opts ctx2 cid h hne
    simp only [FromContext] at h
    split at h
    · injection h with h1
      injection h1 with ha hb
      exact absurd ha.symm hne
    split at h
    · injection h with h1
      injection h1 with ha hb
      exact absurd ha.symm hne
    split at h
    · exact Except.noConfusion h
    case _ c hc =>
      cases hm : newMember CorrelationIDHeader c with
      | error e => rw [hm] at h; exact Except.noConfusion h
      | ok m =>
          rw [hm] at h
          simp only [newBaggage] at h
          injection h with h1
          injection h1 with h2 h3
          rw [← h2, ← h3, newMember_ok _ _ _ hm]
          rfl
  · intro ctx v ctx2 h hne
    simp only [SetWithValue] at h
    split at h
    · injection h with h1; exact absurd h1.symm hne
    cases hm : newMember CorrelationIDHeader v with
    | error e => rw [hm] at h; exact Except.noConfusion h
    | ok m =>
        rw [hm] at h
        simp only [newBaggage] at h
        injection h with h1
        rw [← h1, newMember_ok _ _ _ hm]
        rfl

/-- Witness for C10: a context whose baggage holds an unrelated member
"tenant"; after attaching, only the correlation-ID member remains. -/
theorem C10_attach_replaces_baggage_witness :
    (FromContext [] "" (Ctx.withBaggage (Ctx.root nilTraceID) [("tenant", "t1")])
        [WithValue "B"] =
      .ok (Ctx.withBaggage (Ctx.withBaggage (Ctx.root nilTraceID) [("tenant", "t1")])
            [(CorrelationIDHeader, "B")], "B") ∧
      Ctx.withBaggage (Ctx.withBaggage (Ctx.root nilTraceID) [("tenant", "t1")])
          [(CorrelationIDHeader, "B")] ≠
        Ctx.withBaggage (Ctx.root nilTraceID) [("tenant", "t1")] ∧
      (Ctx.withBaggage (Ctx.withBaggage (Ctx.root nilTraceID) [("tenant", "t1")])
          [(CorrelationIDHeader, "B")]).baggage = [(CorrelationIDHeader, "B")]) ∧
    (SetWithValue (Ctx.withBaggage (Ctx.root nilTraceID) [("tenant", "t1")]) "C" =
      .ok (Ctx.withBaggage (Ctx.withBaggage (Ctx.root nilTraceID) [("tenant", "t1")])
            [(CorrelationIDHeader, "C")]) ∧
      (Ctx.withBaggage (Ctx.withBaggage (Ctx.root nilTraceID) [("tenant", "t1")])
          [(CorrelationIDHeader, "C")]).baggage = [(CorrelationIDHeader, "C")]) :=
  ⟨⟨by decide, by decide,
    C10_attach_replaces_baggage.1 [] ""
      (Ctx.withBaggage (Ctx.root nilTraceID) [("tenant", "t1")]) [WithValue "B"]
      (Ctx.withBaggage (Ctx.withBaggage (Ctx.root nilTraceID) [("tenant", "t1")])
        [(CorrelationIDHeader, "B")]) "B" (by decide) (by decide)⟩,
   ⟨by decide,
    C10_attach_replaces_baggage.2
      (Ctx.withBaggage (Ctx.root nilTraceID) [("tenant", "t1")]) "C"
      (Ctx.withBaggage (Ctx.withBaggage (Ctx.root nilTraceID) [("tenant", "t1")])
        [(CorrelationIDHeader, "C")]) (by decide) (by decide)⟩⟩

theorem setWithValue_noop (ctx : Ctx) (v : String)
    (h : ctx.baggage.memberValue CorrelationIDHeader = v) :
    SetWithValue ctx v = .ok ctx := by
  unfold SetWithValue
  rw [if_pos h]

theorem setWithValue_attach (ctx : Ctx) (v : String)
    (hne : ctx.baggage.memberValue CorrelationIDHeader ≠ v)
    (hv : v.data.all isBaggageOctet = true) :
    SetWithValue ctx v = .ok (contextWithBaggage ctx [(CorrelationIDHeader, v)]) := by
  unfold SetWithValue
  rw [if_neg hne]
  unfold newMember
  rw [if_pos hv]
  rfl

theorem memberValue_single (ctx : Ctx) (v : String) :
    (contextWithBaggage ctx [(CorrelationIDHeader, v)]).baggage.memberValue
      CorrelationIDHeader = v := by
  simp [contextWithBaggage, Ctx.baggage, Baggage.memberValue, List.find?]

theorem sha256_length (msg : List Nat) : (sha256 msg).length = 32 := by
  simp [sha256, wordBE]

theorem goToUpper_hexEncode_ne_empty (bs : List Nat) (h : bs ≠ []) :
    goToUpper (hexEncode bs) ≠ "" := by
  intro heq
  have hl : (goToUpper (hexEncode bs)).data.length = 0 := by rw [heq]; rfl
  rw [goToUpper_hexEncode_data_length] at hl
  exact h (List.length_eq_zero.mp (by omega))

theorem deriveID_ne_empty (t : String) : deriveID t ≠ "" := by
  unfold deriveID
  apply goToUpper_hexEncode_ne_empty
  intro h
  have hl : ((sha256 (utf8Bytes t)).take (correlationIDLength / 2)).length = 4 := by
    rw [List.length_take, sha256_length]; rfl
  rw [h] at hl
  exact absurd hl (by simp)

theorem generateIDDefaultLength_ok (rb : List Nat) (c : String)
    (h : generateIDDefaultLength rb = .ok c) :
    c = goToUpper (hexEncode (rb.take (correlationIDLength / 2))) ∧ c ≠ "" := by
  unfold generateIDDefaultLength at h
  split at h
  · exact Except.noConfusion h
  case isFalse hlen =>
    injection h with h1
    refine ⟨h1.symm, ?_⟩
    rw [← h1]
    apply goToUpper_hexEncode_ne_empty
    intro htake
    have : (rb.take (correlationIDLength / 2)).length = correlationIDLength / 2 := by
      rw [List.length_take]; omega
    rw [htake] at this
    exact absurd this (by simp [correlationIDLength])

/-- Claim C5: `Set` is idempotent — a second call on the context returned by
a first successful call returns the identical context and identical ID;
`SetWithValue` with the value already present returns the original context;
a different value yields a context that is not the original. -/
theorem C5_set_idempotent :
    (∀ (rb rb2 : List Nat) (ctx ctx1 : Ctx) (id1 : String),
      SetCorrelationID rb ctx = .ok (ctx1, id1) →
      SetCorrelationID rb2 ctx1 = .ok (ctx1, id1)) ∧
    (∀ (ctx : Ctx) (v : String),
      ctx.baggage.memberValue CorrelationIDHeader = v →
      SetWithValue ctx v = .ok ctx) ∧
    (∀ (ctx : Ctx) (v : String),
      ctx.baggage.memberValue CorrelationIDHeader ≠ v →
      v.data.all isBaggageOctet = true →
      SetWithValue ctx v = .ok (contextWithBaggage ctx [(CorrelationIDHeader, v)]) ∧
      contextWithBaggage ctx [(CorrelationIDHeader, v)] ≠ ctx) := by
  refine ⟨?_, fun ctx v h => setWithValue_noop ctx v h, fun ctx v hne hv =>
    ⟨setWithValue_attach ctx v hne hv, withBaggage_ne ctx _⟩⟩
  intro rb rb2 ctx ctx1 id1 h
  have second : ∀ c : Ctx, c.baggage.memberValue CorrelationIDHeader = id1 →
      id1 ≠ "" → c = ctx1 → SetCorrelationID rb2 ctx1 = .ok (ctx1, id1) := by
    intro c hmv hne hc
    subst hc
    unfold SetCorrelationID
    rw [hmv, if_pos hne]
  simp only [SetCorrelationID] at h
  split at h
  case isTrue hmv =>
    injection h with h1
    injection h1 with ha hb
    exact second ctx1 (by rw [← ha]; exact hb) (hb ▸ hmv) rfl
  case isFalse hmv =>
    have hmv0 : ctx.baggage.memberValue CorrelationIDHeader = "" := by
      by_contra hc; exact hmv hc
    by_cases htid : ctx.traceID ≠ "" ∧ ctx.traceID ≠ nilTraceID
    · rw [if_pos htid] at h
      replace h : (match SetWithValue ctx (deriveID ctx.traceID) with
          | .error e => (Except.error e : Except String (Ctx × String))
          | .ok c2 => .ok (c2, deriveID ctx.traceID)) = .ok (ctx1, id1) := h
      rw [setWithValue_attach ctx (deriveID ctx.traceID)
        (by rw [hmv0]; exact (deriveID_ne_empty _).symm)
        (by unfold deriveID; exact goToUpper_hexEncode_valid _)] at h
      replace h : (Except.ok (contextWithBaggage ctx
          [(CorrelationIDHeader, deriveID ctx.traceID)], deriveID ctx.traceID) :
          Except String (Ctx × String)) = .ok (ctx1, id1) := h
      injection h with h1
      injection h1 with ha hb
      exact second (contextWithBaggage ctx
          [(CorrelationIDHeader, deriveID ctx.traceID)])
        (by rw [← hb]; exact memberValue_single ctx _)
        (hb ▸ deriveID_ne_empty _) ha
    · rw [if_neg htid] at h
      cases hg : generateIDDefaultLength rb with
      | error e =>
          rw [hg] at h
          exact Except.noConfusion h
      | ok c =>
          rw [hg] at h
          obtain ⟨hc, hcne⟩ := generateIDDefaultLength_ok rb c hg
          replace h : (match SetWithValue ctx c with
              | .error e => (Except.error e : Except String (Ctx × String))
              | .ok c2 => .ok (c2, c)) = .ok (ctx1, id1) := h
          rw [setWithValue_attach ctx c (by rw [hmv0]; exact hcne.symm)
            (by rw [hc]; exact goToUpper_hexEncode_valid _)] at h
          replace h : (Except.ok (contextWithBaggage ctx
              [(CorrelationIDHeader, c)], c) :
              Except String (Ctx × String)) = .ok (ctx1, id1) := h
          injection h with h1
          injection h1 with ha hb
          exact second (contextWithBaggage ctx [(CorrelationIDHeader, c)])
            (by rw [← hb]; exact memberValue_single ctx _)
            (hb ▸ hcne) ha

/-- Witness for C5 at concrete contexts: a generated ID (no trace ID), a
same-value re-set, and a different-value set. -/
theorem C5_set_idempotent_witness :
    (SetCorrelationID [9, 8, 7, 6] (Ctx.root nilTraceID) =
      .ok (Ctx.withBaggage (Ctx.root nilTraceID) [(CorrelationIDHeader, "09080706")],
        "09080706") ∧
     SetCorrelationID [] (Ctx.withBaggage (Ctx.root nilTraceID)
        [(CorrelationIDHeader, "09080706")]) =
      .ok (Ctx.withBaggage (Ctx.root nilTraceID) [(CorrelationIDHeader, "09080706")],
        "09080706")) ∧
    ((Ctx.withBaggage (Ctx.root nilTraceID)
        [(CorrelationIDHeader, "id1")]).baggage.memberValue CorrelationIDHeader = "id1" ∧
     SetWithValue (Ctx.withBaggage (Ctx.root nilTraceID) [(CorrelationIDHeader, "id1")])
        "id1" =
      .ok (Ctx.withBaggage (Ctx.root nilTraceID) [(CorrelationIDHeader, "id1")])) ∧
    ((Ctx.root nilTraceID).baggage.memberValue CorrelationIDHeader ≠ "id2" ∧
     "id2".data.all isBaggageOctet = true ∧
     (SetWithValue (Ctx.root nilTraceID) "id2" =
        .ok (contextWithBaggage (Ctx.root nilTraceID) [(CorrelationIDHeader, "id2")]) ∧
      contextWithBaggage (Ctx.root nilTraceID) [(CorrelationIDHeader, "id2")] ≠
        Ctx.root nilTraceID)) :=
  ⟨⟨by decide,
    C5_set_idempotent.1 [9, 8, 7, 6] []
      (Ctx.root nilTraceID)
      (Ctx.withBaggage (Ctx.root nilTraceID) [(CorrelationIDHeader, "09080706")])
      "09080706" (by decide)⟩,
   ⟨by decide,
    C5_set_idempotent.2.1
      (Ctx.withBaggage (Ctx.root nilTraceID) [(CorrelationIDHeader, "id1")])
      "id1" (by decide)⟩,
   ⟨by decide, by decide,
    C5_set_idempotent.2.2 (Ctx.root nilTraceID) "id2" (by decide) (by decide)⟩⟩

theorem deriveID_length (t : String) : (deriveID t).length = correlationIDLength := by
  show (deriveID t).data.length = correlationIDLength
  unfold deriveID
  rw [goToUpper_hexEncode_data_length, List.length_take, sha256_length]
  decide

theorem generated_length (rb : List Nat) (c : String)
    (hg : generateIDDefaultLength rb = .ok c) : c.length = correlationIDLength := by
  unfold generateIDDefaultLength at hg
  split at hg
  · exact Except.noConfusion hg
  case isFalse hlen =>
    injection hg with h1
    rw [← h1]
    show (goToUpper (hexEncode (rb.take (correlationIDLength / 2)))).data.length =
      correlationIDLength
    rw [goToUpper_hexEncode_data_length, List.length_take]
    simp only [correlationIDLength] at hlen ⊢
    omega

theorem setCorrelationID_derive (rb : List Nat) (ctx : Ctx)
    (hmv : ctx.baggage.memberValue CorrelationIDHeader = "")
    (h1 : ctx.traceID ≠ "") (h2 : ctx.traceID ≠ nilTraceID) :
    SetCorrelationID rb ctx =
      .ok (contextWithBaggage ctx [(CorrelationIDHeader, deriveID ctx.traceID)],
        deriveID ctx.traceID) := by
  simp only [SetCorrelationID, hmv]
  rw [if_neg (by simp), if_pos ⟨h1, h2⟩]
  show (match SetWithValue ctx (deriveID ctx.traceID) with
    | .error e => (Except.error e : Except String (Ctx × String))
    | .ok c2 => .ok (c2, deriveID ctx.traceID)) = _
  rw [setWithValue_attach ctx (deriveID ctx.traceID)
    (by rw [hmv]; exact (deriveID_ne_empty _).symm)
    (goToUpper_hexEncode_valid _)]

theorem setCorrelationID_generate (rb : List Nat) (ctx : Ctx)
    (hmv : ctx.baggage.memberValue CorrelationIDHeader = "")
    (htid : ¬(ctx.traceID ≠ "" ∧ ctx.traceID ≠ nilTraceID))
    (c : String) (hg : generateIDDefaultLength rb = .ok c) :
    SetCorrelationID rb ctx =
      .ok (contextWithBaggage ctx [(CorrelationIDHeader, c)], c) := by
  simp only [SetCorrelationID, hmv]
  rw [if_neg (by simp), if_neg htid, hg]
  show (match SetWithValue ctx c with
    | .error e => (Except.error e : Except String (Ctx × String))
    | .ok c2 => .ok (c2, c)) = _
  obtain ⟨hc, hcne⟩ := generateIDDefaultLength_ok rb c hg
  rw [setWithValue_attach ctx c (by rw [hmv]; exact hcne.symm)
    (by rw [hc]; exact goToUpper_hexEncode_valid _)]

/-- Claim C6: with a usable (non-empty, non-zero) trace ID, `Set` derives
the correlation ID as the first `correlationIDLength/2` bytes of the SHA-256
digest of the trace-ID string, hex-encoded and uppercased — a pure function
of the trace-ID string, so any context with the same trace ID derives the
identical ID; with no usable trace ID, `Set` falls back to random generation
of the same length. -/
theorem C6_derive_from_trace (rb : List Nat) (ctx : Ctx)
    (hmv : ctx.baggage.memberValue CorrelationIDHeader = "") :
    (ctx.traceID ≠ "" → ctx.traceID ≠ nilTraceID →
      SetCorrelationID rb ctx =
        .ok (contextWithBaggage ctx [(CorrelationIDHeader, deriveID ctx.traceID)],
          deriveID ctx.traceID) ∧
      deriveID ctx.traceID =
        goToUpper (hexEncode ((sha256 (utf8Bytes ctx.traceID)).take
          (correlationIDLength / 2))) ∧
      (deriveID ctx.traceID).length = correlationIDLength ∧
      (∀ (rb2 : List Nat) (ctx2 : Ctx),
        ctx2.baggage.memberValue CorrelationIDHeader = "" →
        ctx2.traceID = ctx.traceID →
        SetCorrelationID rb2 ctx2 =
          .ok (contextWithBaggage ctx2 [(CorrelationIDHeader, deriveID ctx.traceID)],
            deriveID ctx.traceID))) ∧
    ((ctx.traceID = "" ∨ ctx.traceID = nilTraceID) →
      ∀ c, generateIDDefaultLength rb = .ok c →
        SetCorrelationID rb ctx =
          .ok (contextWithBaggage ctx [(CorrelationIDHeader, c)], c) ∧
        c.length = correlationIDLength) := by
  constructor
  · intro h1 h2
    refine ⟨setCorrelationID_derive rb ctx hmv h1 h2, rfl, deriveID_length _, ?_⟩
    intro rb2 ctx2 hmv2 htid2
    rw [← htid2]
    exact setCorrelationID_derive rb2 ctx2 hmv2 (htid2 ▸ h1) (htid2 ▸ h2)
  · intro hun c hg
    refine ⟨setCorrelationID_generate rb ctx hmv ?_ c hg, generated_length rb c hg⟩
    rcases hun with hu | hu <;> simp [hu]

/-- Witness for C6 at the concrete context `Ctx.root "abc"`. -/
theorem C6_derive_from_trace_witness :
    (Ctx.root "abc").baggage.memberValue CorrelationIDHeader = "" ∧
    (((Ctx.root "abc").traceID ≠ "" → (Ctx.root "abc").traceID ≠ nilTraceID →
      SetCorrelationID [] (Ctx.root "abc") =
        .ok (contextWithBaggage (Ctx.root "abc")
            [(CorrelationIDHeader, deriveID (Ctx.root "abc").traceID)],
          deriveID (Ctx.root "abc").traceID) ∧
      deriveID (Ctx.root "abc").traceID =
        goToUpper (hexEncode ((sha256 (utf8Bytes (Ctx.root "abc").traceID)).take
          (correlationIDLength / 2))) ∧
      (deriveID (Ctx.root "abc").traceID).length = correlationIDLength ∧
      (∀ (rb2 : List Nat) (ctx2 : Ctx),
        ctx2.baggage.memberValue CorrelationIDHeader = "" →
        ctx2.traceID = (Ctx.root "abc").traceID →
        SetCorrelationID rb2 ctx2 =
          .ok (contextWithBaggage ctx2
              [(CorrelationIDHeader, deriveID (Ctx.root "abc").traceID)],
            deriveID (Ctx.root "abc").traceID))) ∧
    (((Ctx.root "abc").traceID = "" ∨ (Ctx.root "abc").traceID = nilTraceID) →
      ∀ c, generateIDDefaultLength [] = .ok c →
        SetCorrelationID [] (Ctx.root "abc") =
          .ok (contextWithBaggage (Ctx.root "abc") [(CorrelationIDHeader, c)], c) ∧
        c.length = correlationIDLength)) :=
  ⟨by decide, C6_derive_from_trace [] (Ctx.root "abc") (by decide)⟩

/-- Claim C7 counterexample: requesting length 9 (odd) yields an ID of only
8 characters, since `length/2` bytes are generated and hex-encoded. -/
theorem C7_counterexample :
    FromContext [0, 0, 0, 0] "" (Ctx.root "") [GenerateNewFixedLengthIfNotFound 9] =
      .ok (Ctx.withBaggage (Ctx.root "") [(CorrelationIDHeader, "00000000")],
        "00000000") ∧
    ("00000000" : String).length ≠ 9 := by
  constructor
  · decide
  · decide

/-- Claim C7 (amended): a correlation ID generated via the
`GenerateNewFixedLengthIfNotFound(n)` option has exactly `2*(n/2)` characters
(so exactly `n` when `n` is even; `n-1` when `n` is odd), all of them
uppercase hexadecimal. -/
theorem C7_generated_length (n : Nat) (randBytes : List Nat) (uuidStr : String)
    (ctx : Ctx)
    (hmv : ctx.baggage.memberValue CorrelationIDHeader = "")
    (hlen : n / 2 ≤ randBytes.length) :
    FromContext randBytes uuidStr ctx [GenerateNewFixedLengthIfNotFound n] =
      .ok (contextWithBaggage ctx
          [(CorrelationIDHeader, goToUpper (hexEncode (randBytes.take (n / 2))))],
        goToUpper (hexEncode (randBytes.take (n / 2)))) ∧
    (goToUpper (hexEncode (randBytes.take (n / 2)))).length = 2 * (n / 2) ∧
    (goToUpper (hexEncode (randBytes.take (n / 2)))).data.all isUpperHexDigit
      = true := by
  refine ⟨?_, ?_, ?_⟩
  · have hnotlt : ¬(randBytes.length < n / 2) := Nat.not_lt.mpr hlen
    simp [FromContext, GenerateNewFixedLengthIfNotFound, FCOptions.init, hmv,
      generateID, newMember, newBaggage, goToUpper_hexEncode_valid, hnotlt,
      contextWithBaggage]
  · show (goToUpper (hexEncode (randBytes.take (n / 2)))).data.length = 2 * (n / 2)
    rw [goToUpper_hexEncode_data_length, List.length_take]
    omega
  · rw [List.all_eq_true]
    intro c hc
    exact mem_goToUpper_hexEncode_upperHex _ c hc

/-- Witness for C7 (amended) at requested length 12 with six random bytes. -/
theorem C7_generated_length_witness :
    (Ctx.root "").baggage.memberValue CorrelationIDHeader = "" ∧
    12 / 2 ≤ [1, 2, 3, 4, 5, 6].length ∧
    (FromContext [1, 2, 3, 4, 5, 6] "" (Ctx.root "")
        [GenerateNewFixedLengthIfNotFound 12] =
      .ok (contextWithBaggage (Ctx.root "")
          [(CorrelationIDHeader,
            goToUpper (hexEncode ([1, 2, 3, 4, 5, 6].take (12 / 2))))],
        goToUpper (hexEncode ([1, 2, 3, 4, 5, 6].take (12 / 2)))) ∧
    (goToUpper (hexEncode ([1, 2, 3, 4, 5, 6].take (12 / 2)))).length = 2 * (12 / 2) ∧
    (goToUpper (hexEncode ([1, 2, 3, 4, 5, 6].take (12 / 2)))).data.all isUpperHexDigit
      = true) :=
  ⟨by decide, by decide,
   C7_generated_length 12 [1, 2, 3, 4, 5, 6] "" (Ctx.root "") (by decide) (by decide)⟩

/-- `strings.Split` on a one-character separator, over character lists:
splits at every separator occurrence, preserving empty pieces. -/
def splitOnChar (sep : Char) : List Char → List (List Char)
  | [] => [[]]
  | c :: cs =>
      if c = sep then [] :: splitOnChar sep cs
      else
        match splitOnChar sep cs with
        | [] => [[c]]
        | p :: ps => (c :: p) :: ps

/-- `strings.Split(s, sep)` for a one-character separator. -/
def goSplit (s : String) (sep : Char) : List String :=
  (splitOnChar sep s.data).map (fun cs => String.mk cs)

/-- `strings.Contains(s, c)` for a one-character substring. -/
def goContains (s : String) (c : Char) : Bool := s.data.contains c

/-- The parsing loop of `SetSpec`: walks the `:`-separated parts, collecting
`module=level` pairs and the single bare default level (initially
`minLogLevel - 1`, the "unset" sentinel); errors on an invalid level or on a
second bare token. -/
def parseSpecParts : List String → Level → List (String × Level) →
    Except String (Level × List (String × Level))
  | [], d, pairs => .ok (d, pairs)
  | part :: rest, d, pairs =>
      if goContains part '=' then
        match goSplit part '=' with
        | modName :: lvlStr :: _ =>
            match ParseLevel lvlStr with
            | .error e => .error e
            | .ok l => parseSpecParts rest d (pairs ++ [(modName, l)])
        | _ => .error "index out of range"
      else
        if minLogLevel ≤ d then .error "multiple default values found"
        else
          match ParseLevel part with
          | .error e => .error e
          | .ok l => parseSpecParts rest l pairs

/-- `SetSpec(spec)`: parses the whole spec first; only on success does it
write the default level (`INFO` when no bare token was present) and then
each module's level. On a parse error nothing is written. -/
def SetSpec (r : Registry) (spec : String) : Except String Registry :=
  match parseSpecParts (goSplit spec ':') (minLogLevel - 1) [] with
  | .error e => .error e
  | .ok (d, pairs) =>
      let r1 := if minLogLevel ≤ d then r.set "" d else r.set "" INFO
      .ok (pairs.foldl (fun acc p => acc.set p.1 p.2) r1)

/-- The registry state after a `SetSpec` call: unchanged when the call
returned an error (the Go global registry is only mutated on success). -/
def applySetSpec (r : Registry) (spec : String) : Registry :=
  match SetSpec r spec with
  | .ok r2 => r2
  | .error _ => r

/-- The loop of `GetSpec`, iterating the registry entries: the first
component accumulates `module=level:` fragments of non-default modules, the
second remembers the default module's level string. -/
def getSpecAux : Registry → String × String
  | [] => ("", "")
  | (m, l) :: rest =>
      let p := getSpecAux rest
      if m = "" then (p.1, levelString l)
      else (m ++ "=" ++ levelString l ++ ":" ++ p.1, p.2)

/-- `GetSpec()`: the accumulated fragments followed by the default level. -/
def GetSpec (r : Registry) : String := (getSpecAux r).1 ++ (getSpecAux r).2

/-- Whether one `:`-separated token of a spec is rejected by the parser: a
`module=level` token with an unparseable level, or a bare token that is not
a level name. -/
def partBad (p : String) : Bool :=
  if goContains p '=' then
    match goSplit p '=' with
    | _ :: lvlStr :: _ =>
        match ParseLevel lvlStr with
        | .error _ => true
        | .ok _ => false
    | _ => true
  else
    match ParseLevel p with
    | .error _ => true
    | .ok _ => false

theorem parseLevel_ok_ge (s : String) (l : Level) (h : ParseLevel s = .ok l) :
    minLogLevel ≤ l := by
  unfold ParseLevel at h
  repeat' split at h
  all_goals
    first
    | (injection h with h1; rw [← h1]; decide)
    | exact Except.noConfusion h

theorem parse_error_of_bad : ∀ (parts : List String) (d : Level)
    (pairs : List (String × Level)),
    ((∃ p ∈ parts, partBad p = true) ∨
      2 ≤ (parts.filter (fun p => !goContains p '=')).length +
        (if minLogLevel ≤ d then 1 else 0)) →
    ∃ e, parseSpecParts parts d pairs = .error e := by
  intro parts
  induction parts with
  | nil =>
      intro d pairs hbad
      exfalso
      rcases hbad with ⟨p, hp, _⟩ | hcount
      · exact absurd hp (List.not_mem_nil p)
      · simp only [List.filter_nil, List.length_nil, Nat.zero_add] at hcount
        split at hcount <;> omega
  | cons p rest ih =>
      intro d pairs hbad
      unfold parseSpecParts
      by_cases hc : goContains p '=' = true
      · rw [if_pos hc]
        cases hsplit : goSplit p '=' with
        | nil => exact ⟨"index out of range", rfl⟩
        | cons x xs =>
            cases xs with
            | nil => exact ⟨"index out of range", rfl⟩
            | cons lvlStr more =>
                show ∃ e, (match ParseLevel lvlStr with
                  | Except.error e =>
                      (Except.error e : Except String (Level × List (String × Level)))
                  | Except.ok l => parseSpecParts rest d (pairs ++ [(x, l)])) =
                    Except.error e
                cases hparse : ParseLevel lvlStr with
                | error e => exact ⟨e, rfl⟩
                | ok l =>
                    apply ih
                    rcases hbad with ⟨q, hq, hqbad⟩ | hcount
                    · rcases List.mem_cons.mp hq with hq1 | hq1
                      · exfalso
                        rw [hq1] at hqbad
                        unfold partBad at hqbad
                        rw [if_pos hc, hsplit] at hqbad
                        replace hqbad : (match ParseLevel lvlStr with
                          | Except.error _ => true
                          | Except.ok _ => false) = true := hqbad
                        rw [hparse] at hqbad
                        exact Bool.noConfusion hqbad
                      · exact Or.inl ⟨q, hq1, hqbad⟩
                    · refine Or.inr ?_
                      rw [List.filter_cons_of_neg (by simp [hc])] at hcount
                      exact hcount
      · rw [if_neg hc]
        by_cases hd : minLogLevel ≤ d
        · rw [if_pos hd]
          exact ⟨"multiple default values found", rfl⟩
        · rw [if_neg hd]
          cases hparse : ParseLevel p with
          | error e => exact ⟨e, rfl⟩
          | ok l =>
              apply ih
              rcases hbad with ⟨q, hq, hqbad⟩ | hcount
              · rcases List.mem_cons.mp hq with hq1 | hq1
                · exfalso
                  rw [hq1] at hqbad
                  unfold partBad at hqbad
                  rw [if_neg hc, hparse] at hqbad
                  exact Bool.noConfusion hqbad
                · exact Or.inl ⟨q, hq1, hqbad⟩
              · refine Or.inr ?_
                rw [List.filter_cons_of_pos (by simp [hc])] at hcount
                rw [if_neg hd] at hcount
                rw [if_pos (parseLevel_ok_ge p l hparse)]
                simp only [List.length_cons] at hcount
                omega

/-- Claim C8: for every spec string containing an invalid level name (in a
bare token or a `module=level` token) or more than one bare token, `SetSpec`
returns an error and the registry mapping is exactly what it was before the
call — no token is partially applied. -/
theorem C8_setSpec_error_no_mutation (r : Registry) (spec : String)
    (hbad : (∃ p ∈ goSplit spec ':', partBad p = true) ∨
      2 ≤ ((goSplit spec ':').filter (fun p => !goContains p '=')).length) :
    (∃ e, SetSpec r spec = .error e) ∧ applySetSpec r spec = r := by
  obtain ⟨e, he⟩ := parse_error_of_bad (goSplit spec ':') (minLogLevel - 1) []
    (by
      rcases hbad with h | h
      · exact Or.inl h
      · refine Or.inr ?_
        rw [if_neg (by decide)]
        omega)
  have hs : SetSpec r spec = .error e := by
    unfold SetSpec
    rw [he]
  exact ⟨⟨e, hs⟩, by unfold applySetSpec; rw [hs]⟩

/-- Witness for C8: the spec "debug:debug" (two bare tokens) errors and
leaves a concrete registry unchanged. -/
theorem C8_setSpec_error_no_mutation_witness :
    ((∃ p ∈ goSplit "debug:debug" ':', partBad p = true) ∨
      2 ≤ ((goSplit "debug:debug" ':').filter (fun p => !goContains p '=')).length) ∧
    ((∃ e, SetSpec (Registry.empty.set "m" ERROR) "debug:debug" = .error e) ∧
      applySetSpec (Registry.empty.set "m" ERROR) "debug:debug" =
        Registry.empty.set "m" ERROR) :=
  ⟨Or.inr (by decide),
   C8_setSpec_error_no_mutation (Registry.empty.set "m" ERROR) "debug:debug"
     (Or.inr (by decide))⟩

/-- A level that the public API can register: one of the six named levels
(every `ParseLevel` result and every documented constant). -/
def ValidLevel (l : Level) : Prop :=
  l = DEBUG ∨ l = INFO ∨ l = WARNING ∨ l = ERROR ∨ l = PANIC ∨ l = FATAL

instance (l : Level) : Decidable (ValidLevel l) := by
  unfold ValidLevel
  infer_instance

theorem parse_levelString (l : Level) (h : ValidLevel l) :
    ParseLevel (levelString l) = .ok l := by
  rcases h with h | h | h | h | h | h <;> subst h <;> decide

theorem levelString_chars (l : Level) (h : ValidLevel l) :
    ':' ∉ (levelString l).data ∧ '=' ∉ (levelString l).data := by
  rcases h with h | h | h | h | h | h <;> subst h <;> decide

theorem validLevel_ge_min (l : Level) (h : ValidLevel l) : minLogLevel ≤ l := by
  rcases h with h | h | h | h | h | h <;> subst h <;> decide

theorem goContains_eq_true (s : String) (c : Char) (h : c ∈ s.data) :
    goContains s c = true := by
  simp [goContains, List.contains]
  exact h

theorem goContains_eq_false (s : String) (c : Char) (h : c ∉ s.data) :
    goContains s c = false := by
  simp [goContains, List.contains]
  exact h

theorem splitOnChar_ne_nil (sep : Char) (l : List Char) : splitOnChar sep l ≠ [] := by
  induction l with
  | nil => simp [splitOnChar]
  | cons c cs ih =>
      unfold splitOnChar
      split
      · simp
      · split
        · simp
        · simp

theorem splitOnChar_no_sep (sep : Char) (l : List Char) (h : sep ∉ l) :
    splitOnChar sep l = [l] := by
  induction l with
  | nil => rfl
  | cons c cs ih =>
      unfold splitOnChar
      rw [if_neg (fun hceq => h (by rw [← hceq] at *; exact List.mem_cons_self c cs))]
      rw [ih (fun hm => h (List.mem_cons_of_mem c hm))]

theorem splitOnChar_append_sep (sep : Char) (xs ys : List Char) (h : sep ∉ xs) :
    splitOnChar sep (xs ++ sep :: ys) = xs :: splitOnChar sep ys := by
  induction xs with
  | nil => simp [splitOnChar]
  | cons c cs ih =>
      have hc : c ≠ sep := fun hc => h (hc ▸ List.mem_cons_self c cs)
      have hcs : sep ∉ cs := fun hm => h (List.mem_cons_of_mem c hm)
      simp only [List.cons_append]
      rw [splitOnChar.eq_2, if_neg hc, ih hcs]

/-- The concatenated `module=level:` fragments of a registry's entries. -/
def fragcat : Registry → String
  | [] => ""
  | p :: rest => p.1 ++ "=" ++ levelString p.2 ++ ":" ++ fragcat rest

/-- The non-default entries of a registry. -/
def nonDefault (r : Registry) : Registry := r.filter (fun p => p.1 != "")

theorem getSpecAux_no_default (r : Registry) (h : ∀ p ∈ r, p.1 ≠ "") :
    getSpecAux r = (fragcat r, "") := by
  induction r with
  | nil => rfl
  | cons p rest ih =>
      have hp : p.1 ≠ "" := h p (List.mem_cons_self p rest)
      unfold getSpecAux
      rw [ih (fun q hq => h q (List.mem_cons_of_mem p hq))]
      cases p with
      | mk m l =>
          simp only []
          rw [if_neg hp]
          rfl

theorem nonDefault_no_default (r : Registry) : ∀ p ∈ nonDefault r, p.1 ≠ "" := by
  intro p hp
  have := List.of_mem_filter hp
  simpa using this

theorem getSpecAux_with_default (r : Registry) (l0 : Level)
    (hnd : (r.map Prod.fst).Nodup) (hfind : r.find "" = some l0) :
    getSpecAux r = (fragcat (nonDefault r), levelString l0) := by
  induction r with
  | nil => exact Option.noConfusion hfind
  | cons p rest ih =>
      cases p with
      | mk m l =>
          by_cases hm : m = ""
          · subst hm
            unfold Registry.find at hfind
            rw [if_pos rfl] at hfind
            injection hfind with hl
            subst hl
            have hrest : ∀ q ∈ rest, q.1 ≠ "" := by
              intro q hq hq1
              have : "" ∈ rest.map Prod.fst := by
                rw [← hq1]; exact List.mem_map_of_mem Prod.fst hq
              exact (List.nodup_cons.mp hnd).1 this
            unfold getSpecAux
            rw [getSpecAux_no_default rest hrest]
            have hrw : nonDefault (("", l) :: rest) = rest := by
              unfold nonDefault
              rw [List.filter_cons_of_neg (by simp)]
              exact List.filter_eq_self.mpr (by
                intro q hq; simpa using hrest q hq)
            rw [hrw]
            simp
          · have hfind2 : Registry.find rest "" = some l0 := by
              unfold Registry.find at hfind
              rw [if_neg hm] at hfind
              exact hfind
            have hnd2 : (rest.map Prod.fst).Nodup := (List.nodup_cons.mp (by simpa using hnd)).2
            unfold getSpecAux
            rw [ih hnd2 hfind2]
            simp only [if_neg hm]
            have : nonDefault ((m, l) :: rest) = (m, l) :: nonDefault rest := by
              unfold nonDefault
              rw [List.filter_cons_of_pos (by simpa using hm)]
            rw [this]
            rfl

theorem splitOnChar_fragcat (rs : Registry) (suffix : List Char)
    (h : ∀ p ∈ rs, ':' ∉ p.1.data ∧ ValidLevel p.2) :
    splitOnChar ':' ((fragcat rs).data ++ suffix) =
      (rs.map (fun p => (p.1 ++ "=" ++ levelString p.2).data)) ++
        splitOnChar ':' suffix := by
  induction rs with
  | nil => simp [fragcat]
  | cons p rest ih =>
      obtain ⟨hpc, hpl⟩ := h p (List.mem_cons_self p rest)
      have hform : (fragcat (p :: rest)).data ++ suffix =
          (p.1.data ++ '=' :: (levelString p.2).data) ++
            ':' :: ((fragcat rest).data ++ suffix) := by
        show (p.1 ++ "=" ++ levelString p.2 ++ ":" ++ fragcat rest).data ++ suffix = _
        simp only [String.data_append]
        simp [List.append_assoc]
      have hnosep : ':' ∉ p.1.data ++ '=' :: (levelString p.2).data := by
        simp only [List.mem_append, List.mem_cons]
        rintro (hin | hin | hin)
        · exact hpc hin
        · exact absurd hin (by decide)
        · exact (levelString_chars p.2 hpl).1 hin
      rw [hform, splitOnChar_append_sep ':' _ _ hnosep, ih
        (fun q hq => h q (List.mem_cons_of_mem p hq))]
      simp only [List.map_cons, List.cons_append, List.cons.injEq]
      constructor
      · show _ = (p.1 ++ "=" ++ levelString p.2).data
        simp only [String.data_append]
        simp [List.append_assoc]
      · trivial

theorem parseSpecParts_mapped (rs : Registry) (tailParts : List String) (d : Level)
    (h : ∀ p ∈ rs, '=' ∉ p.1.data ∧ ValidLevel p.2) :
    ∀ pairs : List (String × Level),
    parseSpecParts ((rs.map (fun p => p.1 ++ "=" ++ levelString p.2)) ++ tailParts)
        d pairs =
      parseSpecParts tailParts d (pairs ++ rs) := by
  induction rs with
  | nil => intro pairs; simp
  | cons p rest ih =>
      intro pairs
      obtain ⟨hpe, hpl⟩ := h p (List.mem_cons_self p rest)
      simp only [List.map_cons, List.cons_append]
      unfold parseSpecParts
      have hdata : (p.1 ++ "=" ++ levelString p.2).data =
          p.1.data ++ '=' :: (levelString p.2).data := by
        simp only [String.data_append]
        simp [List.append_assoc]
      have hcontains : goContains (p.1 ++ "=" ++ levelString p.2) '=' = true := by
        apply goContains_eq_true
        rw [hdata]
        simp
      rw [if_pos hcontains]
      have hsplit : goSplit (p.1 ++ "=" ++ levelString p.2) '=' =
          [p.1, levelString p.2] := by
        unfold goSplit
        rw [hdata, splitOnChar_append_sep '=' _ _ hpe,
          splitOnChar_no_sep '=' _ (levelString_chars p.2 hpl).2]
        rfl
      rw [hsplit]
      show (match ParseLevel (levelString p.2) with
        | Except.error e =>
            (Except.error e : Except String (Level × List (String × Level)))
        | Except.ok l =>
            parseSpecParts
              ((rest.map (fun q : String × Level => q.1 ++ "=" ++ levelString q.2)) ++
              tailParts) d (pairs ++ [(p.1, l)])) = _
      rw [parse_levelString p.2 hpl]
      show parseSpecParts
          ((rest.map (fun q : String × Level => q.1 ++ "=" ++ levelString q.2)) ++
          tailParts) d (pairs ++ [(p.1, p.2)]) = _
      rw [ih (fun q hq => h q (List.mem_cons_of_mem p hq)) (pairs ++ [(p.1, p.2)])]
      simp only [List.append_assoc, List.singleton_append]
      conv_rhs => rw [← parseSpecParts.eq_def]

theorem find_set (r : Registry) (m : String) (l : Level) (x : String) :
    Registry.find (Registry.set r m l) x =
      if x = m then some l else Registry.find r x := by
  induction r with
  | nil =>
      show Registry.find [(m, l)] x = _
      unfold Registry.find
      by_cases h : m = x
      · rw [if_pos h, if_pos h.symm]
      · rw [if_neg h, if_neg (fun hx => h hx.symm)]
        rfl
  | cons p rest ih =>
      cases p with
      | mk k v =>
          unfold Registry.set
          by_cases hk : k = m
          · rw [if_pos hk]
            subst hk
            show Registry.find ((k, l) :: rest) x = _
            unfold Registry.find
            by_cases hx : k = x
            · rw [if_pos hx, if_pos hx.symm]
            · rw [if_neg hx, if_neg (fun h2 => hx h2.symm), if_neg hx]
          · rw [if_neg hk]
            show Registry.find ((k, v) :: Registry.set rest m l) x = _
            unfold Registry.find
            by_cases hx : k = x
            · rw [if_pos hx, if_neg (fun h2 : x = m => hk (hx.trans h2)), if_pos hx]
            · rw [if_neg hx, ih, if_neg hx]

theorem find_eq_none (rs : Registry) (x : String) (h : ∀ p ∈ rs, p.1 ≠ x) :
    Registry.find rs x = none := by
  induction rs with
  | nil => rfl
  | cons p rest ih =>
      cases p with
      | mk k v =>
          unfold Registry.find
          rw [if_neg (h (k, v) (List.mem_cons_self _ _))]
          exact ih (fun q hq => h q (List.mem_cons_of_mem _ hq))

theorem find_foldl_set (pairs : Registry) (hnd : (pairs.map Prod.fst).Nodup)
    (x : String) :
    ∀ r1 : Registry,
    Registry.find (pairs.foldl (fun acc p => Registry.set acc p.1 p.2) r1) x =
      match Registry.find pairs x with
      | some l => some l
      | none => Registry.find r1 x := by
  induction pairs with
  | nil => intro r1; rfl
  | cons p rest ih =>
      intro r1
      cases p with
      | mk k v =>
          simp only [List.foldl_cons]
          rw [ih (by simpa using (List.nodup_cons.mp (by simpa using hnd)).2)]
          by_cases hk : k = x
          · have hnone : Registry.find rest x = none := by
              apply find_eq_none
              intro q hq hqx
              have hmem : x ∈ rest.map Prod.fst := by
                rw [← hqx]; exact List.mem_map_of_mem Prod.fst hq
              rw [← hk] at hmem
              exact (List.nodup_cons.mp (by simpa using hnd)).1 hmem
            rw [hnone]
            show Registry.find (Registry.set r1 k v) x =
              match Registry.find ((k, v) :: rest) x with
              | some l => some l
              | none => Registry.find r1 x
            rw [find_set]
            unfold Registry.find
            rw [if_pos hk.symm, if_pos hk]
          · show (match Registry.find rest x with
              | some l => some l
              | none => Registry.find (Registry.set r1 k v) x) =
              match Registry.find ((k, v) :: rest) x with
              | some l => some l
              | none => Registry.find r1 x
            rw [show Registry.find ((k, v) :: rest) x =
              if k = x then some v else Registry.find rest x from rfl, if_neg hk]
            cases hr : Registry.find rest x with
            | some l => rfl
            | none =>
                show Registry.find (Registry.set r1 k v) x = Registry.find r1 x
                rw [find_set, if_neg (fun h2 => hk h2.symm)]

theorem find_nonDefault (r : Registry) (x : String) (hx : x ≠ "") :
    Registry.find (nonDefault r) x = Registry.find r x := by
  induction r with
  | nil => rfl
  | cons p rest ih =>
      cases p with
      | mk k v =>
          unfold nonDefault
          by_cases hk : k = ""
          · rw [List.filter_cons_of_neg (by simp [hk])]
            show Registry.find (nonDefault rest) x = Registry.find ((k, v) :: rest) x
            rw [ih, show Registry.find ((k, v) :: rest) x =
              if k = x then some v else Registry.find rest x from rfl,
              if_neg (fun h2 : k = x => hx (h2 ▸ hk))]
          · rw [List.filter_cons_of_pos (by simpa using hk)]
            show Registry.find ((k, v) :: nonDefault rest) x =
              Registry.find ((k, v) :: rest) x
            rw [show Registry.find ((k, v) :: nonDefault rest) x =
              if k = x then some v else Registry.find (nonDefault rest) x from rfl,
              show Registry.find ((k, v) :: rest) x =
              if k = x then some v else Registry.find rest x from rfl, ih]

theorem find_mem (r : Registry) (x : String) (l : Level)
    (h : Registry.find r x = some l) : (x, l) ∈ r := by
  induction r with
  | nil => exact Option.noConfusion h
  | cons p rest ih =>
      cases p with
      | mk k v =>
          rw [show Registry.find ((k, v) :: rest) x =
            if k = x then some v else Registry.find rest x from rfl] at h
          by_cases hk : k = x
          · rw [if_pos hk] at h
            injection h with hv
            exact hk ▸ hv ▸ List.mem_cons_self _ _
          · rw [if_neg hk] at h
            exact List.mem_cons_of_mem _ (ih h)

/-- Claim C9 counterexample: the reachable registry `Set("module1", DEBUG)`
applied to the empty registry has no default entry; `GetSpec` then emits
"module1=DEBUG:" whose trailing empty token makes `SetSpec` fail, so the
round trip does not succeed. -/
theorem C9_counterexample :
    Registry.empty.set "module1" DEBUG = [("module1", DEBUG)] ∧
    GetSpec (Registry.empty.set "module1" DEBUG) = "module1=DEBUG:" ∧
    SetSpec Registry.empty (GetSpec (Registry.empty.set "module1" DEBUG)) =
      .error "logger: invalid log level" := by
  refine ⟨by decide, by decide, by decide⟩

/-- Claim C9 (amended): for every registry with distinct module names, levels
among the six named levels, an entry for the default module `""`, and module
names free of '=' and ':', re-parsing `GetSpec` into an empty registry
succeeds and reproduces exactly the same module-to-level mapping. -/
theorem C9_roundtrip (r : Registry)
    (hnd : (r.map Prod.fst).Nodup)
    (hvalid : ∀ p ∈ r, ValidLevel p.2)
    (hdef : ∃ l0, Registry.find r "" = some l0)
    (hchars : ∀ p ∈ r, '=' ∉ p.1.data ∧ ':' ∉ p.1.data) :
    ∃ r2, SetSpec Registry.empty (GetSpec r) = .ok r2 ∧
      ∀ m, Registry.find r2 m = Registry.find r m := by
  obtain ⟨l0, hl0⟩ := hdef
  have hl0valid : ValidLevel l0 := hvalid ("", l0) (find_mem r "" l0 hl0)
  have hcond : ∀ p ∈ nonDefault r, ':' ∉ p.1.data ∧ ValidLevel p.2 := by
    intro p hp
    have hpr : p ∈ r := List.mem_of_mem_filter hp
    exact ⟨(hchars p hpr).2, hvalid p hpr⟩
  have hcond2 : ∀ p ∈ nonDefault r, '=' ∉ p.1.data ∧ ValidLevel p.2 := by
    intro p hp
    have hpr : p ∈ r := List.mem_of_mem_filter hp
    exact ⟨(hchars p hpr).1, hvalid p hpr⟩
  have hnd2 : ((nonDefault r).map Prod.fst).Nodup :=
    List.Nodup.sublist (List.Sublist.map Prod.fst (List.filter_sublist r)) hnd
  have hgs : GetSpec r = fragcat (nonDefault r) ++ levelString l0 := by
    unfold GetSpec
    rw [getSpecAux_with_default r l0 hnd hl0]
  have hsplit : goSplit (GetSpec r) ':' =
      ((nonDefault r).map (fun p => p.1 ++ "=" ++ levelString p.2)) ++
        [levelString l0] := by
    unfold goSplit
    rw [hgs, String.data_append,
      splitOnChar_fragcat (nonDefault r) ((levelString l0).data) hcond,
      splitOnChar_no_sep ':' _ (levelString_chars l0 hl0valid).1]
    simp only [List.map_append, List.map_map]
    rfl
  have hparse : parseSpecParts (goSplit (GetSpec r) ':') (minLogLevel - 1) [] =
      .ok (l0, nonDefault r) := by
    rw [hsplit,
      parseSpecParts_mapped (nonDefault r) [levelString l0] (minLogLevel - 1) hcond2 []]
    unfold parseSpecParts
    rw [if_neg (by
      rw [goContains_eq_false _ _ (levelString_chars l0 hl0valid).2]
      simp)]
    rw [if_neg (by decide)]
    show (match ParseLevel (levelString l0) with
      | Except.error e =>
          (Except.error e : Except String (Level × List (String × Level)))
      | Except.ok l => parseSpecParts [] l ([] ++ nonDefault r)) = _
    rw [parse_levelString l0 hl0valid]
    show Except.ok (l0, [] ++ nonDefault r) = _
    rw [List.nil_append]
  refine ⟨(nonDefault r).foldl (fun acc p => Registry.set acc p.1 p.2)
    (Registry.set Registry.empty "" l0), ?_, ?_⟩
  · unfold SetSpec
    rw [hparse]
    show Except.ok ((nonDefault r).foldl (fun acc p => Registry.set acc p.1 p.2)
      (if minLogLevel ≤ l0 then Registry.set Registry.empty "" l0
        else Registry.set Registry.empty "" INFO)) = _
    rw [if_pos (validLevel_ge_min l0 hl0valid)]
  · intro m
    rw [find_foldl_set (nonDefault r) hnd2 m (Registry.set Registry.empty "" l0)]
    by_cases hm : m = ""
    · subst hm
      rw [find_eq_none (nonDefault r) "" (by
        intro p hp
        exact nonDefault_no_default r p hp)]
      show Registry.find (Registry.set Registry.empty "" l0) "" = _
      rw [find_set, if_pos rfl, hl0]
    · rw [find_nonDefault r m hm]
      cases hr : Registry.find r m with
      | some l => rfl
      | none =>
          show Registry.find (Registry.set Registry.empty "" l0) m = none
          rw [find_set, if_neg hm]
          rfl

/-- Witness for C9 (amended) at a concrete two-entry registry. -/
theorem C9_roundtrip_witness :
    ((([("module1", DEBUG), ("", WARNING)] : Registry).map Prod.fst).Nodup ∧
      (∀ p ∈ ([("module1", DEBUG), ("", WARNING)] : Registry), ValidLevel p.2) ∧
      (∃ l0, Registry.find [("module1", DEBUG), ("", WARNING)] "" = some l0) ∧
      (∀ p ∈ ([("module1", DEBUG), ("", WARNING)] : Registry),
        '=' ∉ p.1.data ∧ ':' ∉ p.1.data)) ∧
    ∃ r2, SetSpec Registry.empty (GetSpec [("module1", DEBUG), ("", WARNING)]) =
        .ok r2 ∧
      ∀ m, Registry.find r2 m = Registry.find [("module1", DEBUG), ("", WARNING)] m :=
  ⟨⟨by decide, by decide, ⟨WARNING, by decide⟩, by decide⟩,
   C9_roundtrip [("module1", DEBUG), ("", WARNING)] (by decide) (by decide)
     ⟨WARNING, by decide⟩ (by decide)⟩

/-- FIPS 180-4 test vector: the SHA-256 digest of the empty message. -/
example : sha256 [] = [227, 176, 196, 66, 152, 252, 28, 20, 154, 251, 244, 200,
    153, 111, 185, 36, 39, 174, 65, 228, 100, 155, 147, 76, 164, 149, 153, 27,
    120, 82, 184, 85] := by
  decide

set_option maxRecDepth 10000 in
/-- `deriveID` on the trace-ID string "abc": the first four bytes of
SHA-256("abc") = ba7816bf..., hex-encoded and uppercased. -/
example : deriveID "abc" = "BA7816BF" := by
  decide
